import Mathlib

/-!
Verification of the run orchestration-and-aggregation core of the
playwright-ai-reporter repository (`PlaywrightTestReporter`, src file
`part_008`), against its natural-language specification.

The embedding below translates the reporter's state, event ingestion
(`onTestEnd`, `onError`) and the post-run orchestration (`onEnd` with its
pipeline channels) into pure Lean functions.  External collaborators
(AI provider, bug tracker, PR provider, database, notification provider,
filesystem, clock) are modelled as an `Env` of response functions; a call
that may throw is given type `Except String _`, a call whose failures the
callee converts to `null` internally is given `Option _`.  The observable
behaviour of a run is a `RunOutcome`: the process exit code, the ordered
trace of collaborator calls made by the pipeline channels, the built
summary, and the persisted last-run-status document.

Helpers `TestUtils.processTestResults`, `TestUtils.categorizeError`,
`TestUtils.calculateAverageTime` and `TestUtils.findSlowestTests` live in
`src/utils/utils.ts`, which is not among the provided sources; those
definitions are modelled from the specification and are marked
`Modelled from the spec:` in their doc comments.
-/

namespace PlaywrightAIReporter

/-- Playwright attempt status values (`result.status`). -/
inductive TestStatus where
  | passed
  | failed
  | timedOut
  | skipped
  | interrupted
deriving DecidableEq

/-- One entry of `result.errors`: message and stack.  A JavaScript
`undefined`/empty message or stack is modelled as the empty string
(both are falsy, which is all the reporter inspects). -/
structure ErrInfo where
  message : String
  stack : String
deriving DecidableEq

/-- JavaScript `s || d` on strings: the fallback is used when `s` is falsy
(empty or missing, both modelled as `""`). -/
def jsOr (s d : String) : String :=
  if s = "" then d else s

/-- `result.errors[0]?.message || default`. -/
def headMessage (errors : List ErrInfo) (dflt : String) : String :=
  match errors with
  | [] => dflt
  | e :: _ => jsOr e.message dflt

/-- `result.errors[0]?.stack || ''`. -/
def headStack (errors : List ErrInfo) : String :=
  match errors with
  | [] => ""
  | e :: _ => jsOr e.stack ""

/-- A test attempt as handed to `onTestEnd` (raw) and as stored in a
`TestRecord`.  `duration` is in milliseconds when raw, in seconds once
stored; JavaScript numbers are modelled as exact rationals. -/
structure Attempt where
  status : TestStatus
  duration : ℚ
  errors : List ErrInfo
deriving DecidableEq

/-- Error taxonomy of the failure classifier (`errorCategory` strings
`TimeoutError` … `UnknownError` in the source). -/
inductive ErrorCategory where
  | TimeoutError
  | NetworkError
  | SelectorError
  | AssertionError
  | UnknownError
deriving DecidableEq

/-- The lower-cased category name, as used in bug labels
(`failure.errorCategory.toLowerCase()`). -/
def categoryLower : ErrorCategory → String
  | .TimeoutError => "timeouterror"
  | .NetworkError => "networkerror"
  | .SelectorError => "selectorerror"
  | .AssertionError => "assertionerror"
  | .UnknownError => "unknownerror"

/-- Whether `kw` occurs as a substring of `hay`. -/
def containsKw (hay kw : String) : Bool :=
  (hay.splitOn kw).length ≥ 2

/-- Whether any keyword of `kws` occurs in `msg`. -/
def matchesAny (msg : String) (kws : List String) : Bool :=
  kws.any (containsKw msg)

/-- Modelled from the spec: `TestUtils.categorizeError` of
`src/utils/utils.ts` (file not among the provided sources).  Spec 4.2: a
pure function over an ordered, fixed pattern list — timeout keywords, then
network/request keywords, then selector/element keywords, then assertion
keywords, else `UnknownError`; first match wins. -/
def categorizeError (msg : String) : ErrorCategory :=
  let m := msg.toLower
  if matchesAny m ["timeout", "timed out"] then .TimeoutError
  else if matchesAny m ["network", "request", "net::err"] then .NetworkError
  else if matchesAny m ["selector", "element", "locator"] then .SelectorError
  else if matchesAny m ["expect", "assert"] then .AssertionError
  else .UnknownError

/-- The per-test metadata captured when a record is first created in
`onTestEnd` (`TestCaseDetails` in the source; `outcome`/`location`
projections that no claim touches are elided, `status` is the value of
`TestUtils.outcomeToStatus(test.outcome())` at creation time). -/
structure TestCaseDetails where
  testId : String
  testTitle : String
  suiteTitle : String
  testFile : Option String
  owningTeam : String
  status : TestStatus
deriving DecidableEq

/-- A stored test record: creation-time details plus the append-only
attempt list. -/
structure TestRecord where
  test : TestCaseDetails
  attempts : List Attempt
deriving DecidableEq

/-- A surfaced test failure (`TestFailure` in the source). -/
structure TestFailure where
  testId : String
  testTitle : String
  suiteTitle : String
  errorMessage : String
  errorStack : String
  duration : ℚ
  owningTeam : String
  isTimeout : Bool
  errorCategory : ErrorCategory
  testFile : Option String
deriving DecidableEq

/-- The reporter's mutable state: the `_testRecords` map (modelled as an
association list in Map insertion order, keyed exactly as the source keys
it), `_nonTestErrors`, `_hasInterruptedTests`, and the `FileHandler`'s
accumulated per-attempt failures. -/
structure ReporterState where
  testRecords : List (String × TestRecord)
  nonTestErrors : List ErrInfo
  hasInterruptedTests : Bool
  fileHandlerFailures : List TestFailure
deriving DecidableEq

/-- The freshly constructed reporter: empty store, no errors. -/
def initState : ReporterState :=
  { testRecords := [], nonTestErrors := [], hasInterruptedTests := false,
    fileHandlerFailures := [] }

/-- `Map.get`-style lookup on the association-list store (first match). -/
def lookupRec (store : List (String × TestRecord)) (k : String) :
    Option TestRecord :=
  (store.find? (fun p => p.1 == k)).map (·.2)

/-- Apply `f` to the record stored under key `k`, leaving other entries
(and the order) unchanged. -/
def updateRec (store : List (String × TestRecord)) (k : String)
    (f : TestRecord → TestRecord) : List (String × TestRecord) :=
  store.map (fun p => if p.1 == k then (p.1, f p.2) else p)

/-- The attempt as appended to `testRecord.attempts`: duration converted
to seconds, each error message defaulted
(`e.message || 'No error message'`). -/
def storedAttempt (result : Attempt) : Attempt :=
  { status := result.status
    duration := result.duration / 1000
    errors := result.errors.map (fun e => ⟨jsOr e.message "No error message", e.stack⟩) }

/-- The failure the `FileHandler` accumulates for a failed or timed-out
attempt inside `onTestEnd`. -/
def attemptFailure (t : TestCaseDetails) (result : Attempt) : TestFailure :=
  { testId := t.testId
    testTitle := t.testTitle
    suiteTitle := t.suiteTitle
    errorMessage := headMessage result.errors "Unknown error"
    errorStack := headStack result.errors
    duration := result.duration / 1000
    owningTeam := t.owningTeam
    isTimeout := result.status == .timedOut
    errorCategory := categorizeError (headMessage result.errors "Unknown error")
    testFile := t.testFile }

/-- `onTestEnd(test, result)`: create the record keyed by `test.title` on
first sight (inserted at the end, matching Map insertion order), append
the stored attempt, accumulate a `FileHandler` failure when the attempt
failed or timed out, and raise `_hasInterruptedTests` on an interrupted
attempt. -/
def onTestEnd (st : ReporterState) (t : TestCaseDetails) (result : Attempt) :
    ReporterState :=
  let store0 :=
    if (lookupRec st.testRecords t.testTitle).isNone then
      st.testRecords ++ [(t.testTitle, ⟨t, []⟩)]
    else st.testRecords
  let store1 := updateRec store0 t.testTitle
    (fun r => ⟨r.test, r.attempts ++ [storedAttempt result]⟩)
  let fh :=
    if result.status = .failed ∨ result.status = .timedOut then
      st.fileHandlerFailures ++ [attemptFailure t result]
    else st.fileHandlerFailures
  { testRecords := store1
    nonTestErrors := st.nonTestErrors
    hasInterruptedTests := st.hasInterruptedTests || (result.status == .interrupted)
    fileHandlerFailures := fh }

/-- `onError(error)`: record a setup/teardown error outside any test. -/
def onError (st : ReporterState) (e : ErrInfo) : ReporterState :=
  { st with nonTestErrors := st.nonTestErrors ++ [e] }

/-- An incoming runner callback relevant to core state. -/
inductive RunnerEvent where
  | testEnd (t : TestCaseDetails) (result : Attempt)
  | nonTestError (e : ErrInfo)
deriving DecidableEq

/-- Dispatch one runner callback. -/
def ingest (st : ReporterState) : RunnerEvent → ReporterState
  | .testEnd t result => onTestEnd st t result
  | .nonTestError e => onError st e

/-- The reporter state after a whole sequence of runner callbacks. -/
def ingestAll (es : List RunnerEvent) : ReporterState :=
  es.foldl ingest initState

/-- The final attempt of a record, when any. -/
def finalAttempt (r : TestRecord) : Option Attempt :=
  r.attempts.getLast?

/-- Modelled from the spec: the per-record part of
`TestUtils.processTestResults` (`src/utils/utils.ts` is not among the
provided sources).  Spec 3: a `Failure` is derived from each record whose
final-attempt status is failed or timedOut, using the final attempt's
error, never an earlier one. -/
def failureOfRecord (r : TestRecord) : Option TestFailure :=
  match r.attempts.getLast? with
  | none => none
  | some a =>
    if a.status = .failed ∨ a.status = .timedOut then
      some
        { testId := r.test.testId
          testTitle := r.test.testTitle
          suiteTitle := r.test.suiteTitle
          errorMessage := headMessage a.errors "Unknown error"
          errorStack := headStack a.errors
          duration := a.duration
          owningTeam := r.test.owningTeam
          isTimeout := a.status == .timedOut
          errorCategory := categorizeError (headMessage a.errors "Unknown error")
          testFile := r.test.testFile }
    else none

/-- The values destructured from `TestUtils.processTestResults` in
`onEnd`. -/
structure ProcessedResults where
  passedCount : Nat
  testCount : Nat
  skippedCount : Nat
  failures : List TestFailure
  passedDurations : List ℚ
deriving DecidableEq

/-- Modelled from the spec: `TestUtils.processTestResults` of
`src/utils/utils.ts` (file not among the provided sources).  Spec 4.3 and
3: passed/skipped counts are counts of records by final-attempt status,
`testCount` is the number of records, `failures` is derived one per
record with a failing final attempt, `passedDurations` collects the
durations of attempts whose status is passed. -/
def processTestResults (store : List (String × TestRecord)) :
    ProcessedResults :=
  { passedCount :=
      store.countP (fun p => (finalAttempt p.2).map (·.status) == some .passed)
    testCount := store.length
    skippedCount :=
      store.countP (fun p => (finalAttempt p.2).map (·.status) == some .skipped)
    failures := store.filterMap (fun p => failureOfRecord p.2)
    passedDurations :=
      (store.map (fun p =>
        (p.2.attempts.filter (fun a => a.status == .passed)).map (·.duration))).flatten }

/-- Modelled from the spec: `TestUtils.calculateAverageTime`
(`src/utils/utils.ts` is not among the provided sources).  Spec 4.3: the
mean of the passed-attempt durations (taken as 0 for an empty list). -/
def calculateAverageTime (ds : List ℚ) : ℚ :=
  if ds = [] then 0 else ds.sum / ds.length

/-- Ordered insertion used to keep a descending-by-duration list; an
incoming element goes after all elements of strictly larger or equal
duration, so first-encountered order breaks ties (stable). -/
def insertDesc (x : String × ℚ) : List (String × ℚ) → List (String × ℚ)
  | [] => [x]
  | y :: ys => if y.2 < x.2 then x :: y :: ys else y :: insertDesc x ys

/-- Modelled from the spec: `TestUtils.findSlowestTests`
(`src/utils/utils.ts` is not among the provided sources).  Spec 4.3: the
top-K passed tests by duration, descending, ties broken by
first-encountered order. -/
def findSlowestTests (store : List (String × TestRecord)) (k : Nat) :
    List (String × ℚ) :=
  let passed := store.filterMap (fun p =>
    match finalAttempt p.2 with
    | some a => if a.status = .passed then some (p.2.test.testTitle, a.duration) else none
    | none => none)
  (passed.foldl (fun acc x => insertDesc x acc) []).take k

/-- Build metadata gathered by the external `BuildInfoUtils`
collaborator. -/
structure BuildInfo where
  buildBranch : String
  commitId : String
deriving DecidableEq

/-- The `TestSummary` assembled in `onEnd`. -/
structure TestSummary where
  failures : List TestFailure
  testCount : Nat
  passedCount : Nat
  skippedCount : Nat
  failedCount : Nat
  totalTimeSec : ℚ
  averageTime : ℚ
  slowestTest : ℚ
  slowestTests : List (String × ℚ)
  buildInfo : Option BuildInfo
deriving DecidableEq

/-- The reporter configuration after constructor defaulting (only the
fields the orchestration reads). -/
structure ReporterConfig where
  maxSlowTestsToShow : Nat
  generateFix : Bool
  createBug : Bool
  generatePR : Bool
  publishToDB : Bool
  sendEmail : Bool
deriving DecidableEq

/-- The constructor defaults of `PlaywrightTestReporter`. -/
def defaultReporterConfig : ReporterConfig :=
  { maxSlowTestsToShow := 3, generateFix := false, createBug := false,
    generatePR := false, publishToDB := false, sendEmail := false }

/-- Bug priorities of `IBugTrackerProvider`. -/
inductive BugPriority where
  | Critical
  | High
  | Medium
  | Low
deriving DecidableEq

/-- Notification severities of `INotificationProvider`. -/
inductive NotificationSeverity where
  | Info
  | Warning
  | Error
  | Critical
deriving DecidableEq

/-- Result of a notification provider call. -/
structure NotificationResult where
  success : Bool
  messageId : String
  errMsg : String
deriving DecidableEq

/-- Result of `GenAIUtils.generateFixSuggestion` on success. -/
structure FixResult where
  promptPath : String
  fixPath : String
deriving DecidableEq

/-- A single file change handed to `PRProvider.commitChanges` (`action`
is one of the strings add/modify/delete). -/
structure FileChange where
  path : String
  content : String
  action : String
deriving DecidableEq

/-- The options handed to `PRProvider.createPullRequest` (the prose
`description`, which interpolates float formatting, is elided; no claim
reads it). -/
structure PROptions where
  sourceBranch : String
  targetBranch : String
  title : String
  labels : List String
  draft : Bool
deriving DecidableEq

/-- Info returned by `PRProvider.createPullRequest`. -/
structure PRInfo where
  number : Nat
  url : String
  status : String
  sourceBranch : String
  targetBranch : String
deriving DecidableEq

/-- The payload handed to `BugTrackerProvider.createBug` (the prose
`description`, which interpolates float formatting, is elided; no claim
reads it). -/
structure BugPayload where
  title : String
  priority : BugPriority
  labels : List String
  assignee : String
deriving DecidableEq

/-- Info returned by `BugTrackerProvider.createBug`. -/
structure BugInfo where
  id : String
  url : String
  status : String
deriving DecidableEq

/-- The environment of external collaborators: each field is the response
behaviour of one external call.  `Except String _` models a call that may
throw (the thrown error's message); `Option _` models a call whose callee
absorbs its own errors and returns null.  `commitChanges` returning
`some h` models a truthy commit id, `none` a falsy one or `null`. -/
structure Env where
  totalTimeSec : ℚ
  buildInfo : Option BuildInfo
  readSource : String → Except String String
  genFix : TestFailure → Option FixResult
  prRegistry : Except String Unit
  readFixFile : String → Except String String
  baseBranch : String
  timestamp : String
  createBranch : String → String → Except String Bool
  commitChanges : String → List FileChange → String → Except String (Option String)
  createPullRequest : PROptions → Except String (Option PRInfo)
  bugRegistry : Except String Unit
  createBug : BugPayload → Except String (Option BugInfo)
  dbConfigured : Bool
  dbRegistry : Except String Unit
  dbInit : Except String Unit
  saveTestRun : Except String String
  saveTestResult : String → TestCaseDetails → Except String Unit
  notifyConfigured : Bool
  notifyRegistry : Except String Unit
  recipients : List String
  sendTestSummary : NotificationSeverity → Except String NotificationResult
  sendTestFailures : Except String NotificationResult

/-- The pipeline channels. -/
inductive Chan where
  | fixSuggestion
  | prAutomation
  | bugFiling
  | dbPublish
  | notification
deriving DecidableEq

/-- One observable collaborator call made by a pipeline channel, with the
payload fields the claims inspect. -/
inductive Event where
  | fixAttempt (testTitle : String)
  | fixGenerated (testTitle promptPath fixPath : String)
  | prStart (testTitle : String)
  | prBranchCreate (branchName baseBranch : String)
  | prCommit (branchName : String) (files : List FileChange)
  | prCreateRequest (opts : PROptions)
  | bugCreate (payload : BugPayload)
  | dbSaveRun (totalTests passedTests failedTests skippedTests : Nat)
  | dbSaveResult (runId testId testTitle : String) (status : TestStatus)
  | notifySummary (severity : NotificationSeverity) (recipients : List String)
  | notifyFailures (severity : NotificationSeverity) (recipients : List String)
deriving DecidableEq

/-- The channel a call belongs to. -/
def channelOf : Event → Chan
  | .fixAttempt _ => .fixSuggestion
  | .fixGenerated _ _ _ => .fixSuggestion
  | .prStart _ => .prAutomation
  | .prBranchCreate _ _ => .prAutomation
  | .prCommit _ _ => .prAutomation
  | .prCreateRequest _ => .prAutomation
  | .bugCreate _ => .bugFiling
  | .dbSaveRun _ _ _ _ => .dbPublish
  | .dbSaveResult _ _ _ _ => .dbPublish
  | .notifySummary _ _ => .notification
  | .notifyFailures _ _ => .notification

/-- The branch-name sanitisation of `_generatePullRequest`:
`replace(/[^a-zA-Z0-9]/g, '-').toLowerCase()` (each non-alphanumeric
character becomes one dash, letters are lower-cased). -/
def sanitizeTitle (s : String) : String :=
  String.mk (s.data.map (fun c => if c.isAlphanum then c.toLower else '-'))

/-- The commit message of `_generatePullRequest` (its template-literal
indentation is elided). -/
def commitMessageOf (f : TestFailure) : String :=
  "fix: Auto-fix for failing test \"" ++ f.testTitle ++ "\"\n\nTest: " ++
    f.testTitle ++ "\nSuite: " ++ f.suiteTitle ++ "\nFile: " ++
    (f.testFile.getD "") ++ "\nError: " ++ f.errorMessage.take 100 ++
    (if f.errorMessage.length > 100 then "..." else "") ++
    "\n\nThis is an AI-generated fix suggestion."

/-- The pull-request options built by `_generatePullRequest`
(`draft: true` in the source). -/
def mkPROptions (f : TestFailure) (branchName baseBranch : String) : PROptions :=
  { sourceBranch := branchName
    targetBranch := baseBranch
    title := "🤖 Auto-fix: " ++ f.testTitle
    labels := ["auto-fix", "test-failure", "ai-generated"]
    draft := true }

/-- `_generatePullRequest(failure, fixResult)`: resolve the PR provider,
read the fix file, derive the branch name from the sanitised test title
plus a timestamp, then create branch, commit, and open a draft pull
request; any throwing or unsuccessful step ends (only) this failure's PR
automation.  The trace lists each provider call made. -/
def generatePullRequest (env : Env) (f : TestFailure) (fixResult : FixResult) :
    List Event :=
  match env.prRegistry with
  | .error _ => []
  | .ok _ =>
    match env.readFixFile fixResult.fixPath with
    | .error _ => []
    | .ok fixContent =>
      match f.testFile with
      | none => []
      | some file =>
        let branchName := "autofix/" ++ sanitizeTitle f.testTitle ++ "-" ++ env.timestamp
        Event.prBranchCreate branchName env.baseBranch ::
          match env.createBranch branchName env.baseBranch with
          | .error _ => []
          | .ok false => []
          | .ok true =>
            let files : List FileChange := [⟨file, fixContent, "modify"⟩]
            Event.prCommit branchName files ::
              match env.commitChanges branchName files (commitMessageOf f) with
              | .error _ => []
              | .ok none => []
              | .ok (some _) =>
                [Event.prCreateRequest (mkPROptions f branchName env.baseBranch)]

/-- One iteration of the `_generateFixSuggestions` loop: a failure
without a source file is skipped; otherwise the source file is read and
the AI collaborator invoked (both failure modes are caught per failure),
and on a successful suggestion the nested PR automation runs exactly when
the `generatePR` toggle is enabled. -/
def fixOne (cfg : ReporterConfig) (env : Env) (f : TestFailure) : List Event :=
  match f.testFile with
  | none => []
  | some file =>
    Event.fixAttempt f.testTitle ::
      match env.readSource file with
      | .error _ => []
      | .ok _ =>
        match env.genFix f with
        | none => []
        | some r =>
          Event.fixGenerated f.testTitle r.promptPath r.fixPath ::
            (if cfg.generatePR then
              Event.prStart f.testTitle :: generatePullRequest env f r
            else [])

/-- The FixSuggestion channel: runs only when `generateFix` is enabled and
failures exist; iterates the failures sequentially. -/
def fixSuggestionChannel (cfg : ReporterConfig) (env : Env)
    (failures : List TestFailure) : List Event :=
  if cfg.generateFix && !failures.isEmpty then
    (failures.map (fixOne cfg env)).flatten
  else []

/-- The bug payload built by `_createBugsForFailures`. -/
def mkBugPayload (f : TestFailure) : BugPayload :=
  { title := "[Test Failure] " ++ f.testTitle
    priority := if f.isTimeout then .High else .Medium
    labels := ["test-failure", "automated", categoryLower f.errorCategory]
    assignee := f.owningTeam }

/-- The BugFiling channel: runs only when `createBug` is enabled and
failures exist; a throwing provider-registry resolution aborts the whole
channel, while each per-failure `createBug` call is individually caught,
so every failure's bug creation is requested regardless of earlier
outcomes. -/
def bugFilingChannel (cfg : ReporterConfig) (env : Env)
    (failures : List TestFailure) : List Event :=
  if cfg.createBug && !failures.isEmpty then
    match env.bugRegistry with
    | .error _ => []
    | .ok _ => failures.map (fun f => Event.bugCreate (mkBugPayload f))
  else []

/-- The per-row save loop of `_publishToDatabase`: it lives inside the
channel's single try block, so a throwing row save aborts the remaining
rows. -/
def dbSaveLoop (env : Env) (runId : String) :
    List TestCaseDetails → List Event
  | [] => []
  | tc :: rest =>
    Event.dbSaveResult runId tc.testId tc.testTitle tc.status ::
      match env.saveTestResult runId tc with
      | .error _ => []
      | .ok _ => dbSaveLoop env runId rest

/-- The DBPublish channel: skipped with a notice when no database
provider is configured; otherwise resolve the provider, initialise, save
one run row, then one result row per test record; a failing run-row save
aborts the per-row saves. -/
def dbPublishChannel (cfg : ReporterConfig) (env : Env) (summary : TestSummary)
    (allTestCases : List TestCaseDetails) : List Event :=
  if cfg.publishToDB then
    if !env.dbConfigured then []
    else
      match env.dbRegistry with
      | .error _ => []
      | .ok _ =>
        match env.dbInit with
        | .error _ => []
        | .ok _ =>
          Event.dbSaveRun summary.testCount summary.passedCount
              summary.failedCount summary.skippedCount ::
            match env.saveTestRun with
            | .error _ => []
            | .ok runId => dbSaveLoop env runId allTestCases
  else []

/-- The severity computed by `_sendEmailNotification`:
`failedCount > 0` gives Error, else `skippedCount > testCount * 0.2`
gives Warning, else Info.  The JavaScript float comparison with `0.2` is
modelled exactly as the rational comparison `5 * skipped > testCount`. -/
def severityOf (summary : TestSummary) : NotificationSeverity :=
  if summary.failedCount > 0 then .Error
  else if 5 * summary.skippedCount > summary.testCount then .Warning
  else .Info

/-- The Notification channel: skipped when no notification provider is
configured or the recipient list is empty; otherwise one summary
notification is sent, and one failures notification (at Error severity)
exactly when failures exist and the summary send did not throw (a throw
is caught by the channel's single catch). -/
def notificationChannel (cfg : ReporterConfig) (env : Env)
    (summary : TestSummary) (failures : List TestFailure) : List Event :=
  if cfg.sendEmail then
    if !env.notifyConfigured then []
    else
      match env.notifyRegistry with
      | .error _ => []
      | .ok _ =>
        if env.recipients.isEmpty then []
        else
          let severity := severityOf summary
          Event.notifySummary severity env.recipients ::
            match env.sendTestSummary severity with
            | .error _ => []
            | .ok _ =>
              if !failures.isEmpty then
                [Event.notifyFailures .Error env.recipients]
              else []
  else []

/-- The persisted `.last-run.json` document. -/
structure LastRunStatus where
  status : String
  failedTests : List String
deriving DecidableEq

/-- `saveLastRunStatus(hasFailed)`: status from the flag, failed test ids
from the records whose creation-time status is failed. -/
def lastRunStatusOf (st : ReporterState) (hasFailed : Bool) : LastRunStatus :=
  { status := if hasFailed then "failed" else "passed"
    failedTests :=
      (st.testRecords.filter (fun p => p.2.test.status == .failed)).map
        (fun p => p.2.test.testId) }

/-- The observable outcome of `onEnd`: process exit code, the ordered
pipeline-call trace, the built summary (none when no tests were
discovered) and the persisted last-run status (none likewise). -/
structure RunOutcome where
  exitCode : Nat
  events : List Event
  summary : Option TestSummary
  lastRun : Option LastRunStatus
deriving DecidableEq

/-- The `TestSummary` assembled in `onEnd` (`failedCount` is the
source's subtraction `testCount - passedCount - skippedCount`). -/
def buildSummary (cfg : ReporterConfig) (env : Env) (st : ReporterState) :
    TestSummary :=
  let p := processTestResults st.testRecords
  { failures := p.failures
    testCount := p.testCount
    passedCount := p.passedCount
    skippedCount := p.skippedCount
    failedCount := p.testCount - p.passedCount - p.skippedCount
    totalTimeSec := env.totalTimeSec
    averageTime := calculateAverageTime p.passedDurations
    slowestTest := p.passedDurations.foldr max 0
    slowestTests := findSlowestTests st.testRecords cfg.maxSlowTestsToShow
    buildInfo := env.buildInfo }

/-- The `allTestCases` extraction of `onEnd`. -/
def allCases (st : ReporterState) : List TestCaseDetails :=
  st.testRecords.map (fun q => q.2.test)

/-- The calls made by the pipeline, channel after channel in the fixed
order FixSuggestion (with nested PRAutomation), BugFiling, DBPublish,
Notification. -/
def pipelineEvents (cfg : ReporterConfig) (env : Env) (st : ReporterState) :
    List Event :=
  let p := processTestResults st.testRecords
  fixSuggestionChannel cfg env p.failures ++
  bugFilingChannel cfg env p.failures ++
  dbPublishChannel cfg env (buildSummary cfg env st) (allCases st) ++
  notificationChannel cfg env (buildSummary cfg env st) p.failures

/-- The exit decision of `onEnd` for a run with tests: non-zero exactly
when failures, non-test errors or interrupted tests were recorded; it
reads nothing but reporter state. -/
def exitDecision (st : ReporterState) : Nat :=
  if !(processTestResults st.testRecords).failures.isEmpty ||
     !st.nonTestErrors.isEmpty || st.hasInterruptedTests then 1 else 0

/-- `onEnd(result)`: process the frozen store; with zero tests take the
no-tests-discovered early exit (failing code, no channel work); otherwise
build the summary, run the four channels in their fixed order, persist
the last-run status from whether failures exist, and decide the exit code
from failures, non-test errors and the interrupted flag only. -/
def onEnd (cfg : ReporterConfig) (env : Env) (st : ReporterState) : RunOutcome :=
  if (processTestResults st.testRecords).testCount = 0 then
    { exitCode := 1, events := [], summary := none, lastRun := none }
  else
    { exitCode := exitDecision st
      events := pipelineEvents cfg env st
      summary := some (buildSummary cfg env st)
      lastRun := some (lastRunStatusOf st
        (!(processTestResults st.testRecords).failures.isEmpty)) }


/-! ### Concrete instances used by counterexamples and witnesses -/

/-- Predicate on a runner event: an attempt that ended interrupted. -/
def isInterruptedEvent : RunnerEvent → Bool
  | .testEnd _ a => a.status == .interrupted
  | .nonTestError _ => false

/-- Store well-formedness maintained by event ingestion: each entry's key
is its record's creation-time test title, and keys are pairwise
distinct. -/
def WFStore (store : List (String × TestRecord)) : Prop :=
  (∀ p ∈ store, p.1 = p.2.test.testTitle) ∧
    store.Pairwise (fun p q => p.1 ≠ q.1)

/-- The notification-channel calls of a finished run. -/
def notifyEventsOf (cfg : ReporterConfig) (env : Env) (st : ReporterState) :
    List Event :=
  (onEnd cfg env st).events.filter (fun e => channelOf e == Chan.notification)

/-- Whether an event is a RunSummary notification send. -/
def isSummaryNotification : Event → Bool
  | .notifySummary _ _ => true
  | _ => false

/-- The fix suggestion for a failure succeeded: it has a source file, the
file read returned, and the AI collaborator produced a suggestion. -/
def fixSucceeded (env : Env) (f : TestFailure) : Prop :=
  ∃ file r, f.testFile = some file ∧ (∃ s, env.readSource file = .ok s) ∧
    env.genFix f = some r

/-- A benign collaborator environment: every call succeeds, no optional
channel collaborator is configured. -/
def envNoop : Env :=
  { totalTimeSec := 0, buildInfo := none,
    readSource := fun _ => .ok "", genFix := fun _ => none,
    prRegistry := .ok (), readFixFile := fun _ => .ok "",
    baseBranch := "main", timestamp := "20250101",
    createBranch := fun _ _ => .ok true,
    commitChanges := fun _ _ _ => .ok (some "abc"),
    createPullRequest := fun _ => .ok none,
    bugRegistry := .ok (), createBug := fun _ => .ok none,
    dbConfigured := false, dbRegistry := .ok (), dbInit := .ok (),
    saveTestRun := .ok "run-1", saveTestResult := fun _ _ => .ok (),
    notifyConfigured := false, notifyRegistry := .ok (), recipients := [],
    sendTestSummary := fun _ => .ok ⟨true, "mid", ""⟩,
    sendTestFailures := .ok ⟨true, "mid", ""⟩ }

/-- A test whose only attempt is interrupted. -/
def tcInterrupted : TestCaseDetails :=
  ⟨"id-int", "hangs", "Suite", some "a.spec.ts", "TeamA", .interrupted⟩

/-- Reporter state after one interrupted attempt. -/
def stInterrupted : ReporterState :=
  onTestEnd initState tcInterrupted ⟨.interrupted, 0, []⟩

/-- Like `envNoop` but with an operational notification provider and one
recipient. -/
def envNotify : Env :=
  { envNoop with notifyConfigured := true, recipients := ["qa@example.com"] }

/-- Reporter configuration with only the email channel enabled. -/
def cfgEmail : ReporterConfig :=
  { defaultReporterConfig with sendEmail := true }

/-- Reporter configuration with only the bug channel enabled. -/
def cfgBug : ReporterConfig := { defaultReporterConfig with createBug := true }

/-- Like `envNoop` but with a bug tracker that throws on every call. -/
def envBugThrow : Env :=
  { envNoop with createBug := fun _ => .error "bug tracker down" }

/-- A test titled dup in suite A. -/
def tcDupA : TestCaseDetails :=
  ⟨"id-a", "dup", "Suite A", some "a.spec.ts", "TeamA", .passed⟩

/-- A different test with the same title dup, in suite B. -/
def tcDupB : TestCaseDetails :=
  ⟨"id-b", "dup", "Suite B", some "b.spec.ts", "TeamB", .failed⟩

/-- First attempt for the same-titled tests. -/
def aDup1 : Attempt := ⟨.passed, 0, []⟩

/-- Second attempt for the same-titled tests. -/
def aDup2 : Attempt := ⟨.failed, 0, [⟨"expect failed", "stk"⟩]⟩

/-- A test that passes on its only attempt. -/
def tcPass : TestCaseDetails :=
  ⟨"id-p", "adds numbers", "Math suite", some "math.spec.ts", "TeamA", .passed⟩

/-- Reporter state after one passing attempt. -/
def stPass : ReporterState := onTestEnd initState tcPass ⟨.passed, 1500, []⟩

/-- A flaky test: fails on the first attempt, passes on the retry. -/
def tcFlaky : TestCaseDetails :=
  ⟨"id-fl", "flaky", "Suite F", some "f.spec.ts", "TeamF", .passed⟩

/-- The failing first attempt of the flaky test. -/
def aFlakyFail : Attempt := ⟨.failed, 0, [⟨"boom", "stk"⟩]⟩

/-- The passing retry of the flaky test. -/
def aFlakyPass : Attempt := ⟨.passed, 0, []⟩

/-- The runner events of the flaky run. -/
def esFlaky : List RunnerEvent :=
  [.testEnd tcFlaky aFlakyFail, .testEnd tcFlaky aFlakyPass]

/-- The stored record of the flaky test after both attempts. -/
def rFlaky : TestRecord :=
  ⟨tcFlaky, [storedAttempt aFlakyFail, storedAttempt aFlakyPass]⟩

/-- Runner events of a clean one-test run. -/
def esPass : List RunnerEvent := [.testEnd tcPass ⟨.passed, 1500, []⟩]

/-- Reporter configuration with fix generation and PR automation on. -/
def cfgPR : ReporterConfig :=
  { defaultReporterConfig with generateFix := true, generatePR := true }

/-- Like `envNoop` but with an AI collaborator that returns a fix. -/
def envFix : Env :=
  { envNoop with genFix := fun _ => some ⟨"prompts/p.md", "fixes/f.md"⟩ }

/-- A concrete failure with a known source file. -/
def fFail : TestFailure :=
  ⟨"id-f", "login works", "Auth suite", "boom", "stk", 0, "TeamA", false,
    .UnknownError, some "auth.spec.ts"⟩


/-! ### General lemmas about counting, the record store, and ingestion -/

/-- Two disjoint Boolean predicates count at most the list's length. -/
theorem countP_disjoint_le {α : Type} (p q : α → Bool) (l : List α)
    (h : ∀ a, ¬(p a = true ∧ q a = true)) :
    l.countP p + l.countP q ≤ l.length := by
  induction l with
  | nil => simp
  | cons a t ih =>
    have ha := h a
    simp only [List.countP_cons, List.length_cons]
    by_cases hp : p a = true <;> by_cases hq : q a = true <;>
      simp [hp, hq] at ha ⊢ <;> omega

/-- Passed and skipped final statuses are disjoint, so their counts are
bounded by the record count. -/
theorem counts_le (store : List (String × TestRecord)) :
    (processTestResults store).passedCount + (processTestResults store).skippedCount ≤
      (processTestResults store).testCount := by
  unfold processTestResults
  apply countP_disjoint_le
  intro a h
  rcases h with ⟨h1, h2⟩
  simp only [beq_iff_eq] at h1 h2
  rw [h1] at h2
  cases h2

/-- Folding ingestion accumulates the interrupted flag as a disjunction
over the events. -/
theorem flag_foldl (es : List RunnerEvent) :
    ∀ s : ReporterState, (es.foldl ingest s).hasInterruptedTests =
      (s.hasInterruptedTests || es.any isInterruptedEvent) := by
  induction es with
  | nil =>
    intro s
    simp
  | cons e t ih =>
    intro s
    rw [List.foldl_cons, ih, List.any_cons]
    cases e with
    | testEnd tc a =>
      simp [ingest, onTestEnd, isInterruptedEvent, Bool.or_assoc]
    | nonTestError err =>
      simp [ingest, onError, isInterruptedEvent]

/-- The interrupted flag is raised exactly when some attempt-end event
carried the interrupted status. -/
theorem flag_iff (es : List RunnerEvent) :
    (ingestAll es).hasInterruptedTests = true ↔
      ∃ t a, RunnerEvent.testEnd t a ∈ es ∧ a.status = .interrupted := by
  rw [ingestAll, flag_foldl]
  simp only [initState, Bool.false_or, List.any_eq_true]
  constructor
  · rintro ⟨e, he, hi⟩
    cases e with
    | testEnd tc a =>
      refine ⟨tc, a, he, ?_⟩
      simpa [isInterruptedEvent] using hi
    | nonTestError err =>
      simp [isInterruptedEvent] at hi
  · rintro ⟨t, a, hm, hs⟩
    exact ⟨.testEnd t a, hm, by simp [isInterruptedEvent, hs]⟩

/-- Lookup in the empty store. -/
theorem lookupRec_nil (k : String) : lookupRec [] k = none := rfl

/-- Lookup steps through a cons cell. -/
theorem lookupRec_cons (p : String × TestRecord) (t : List (String × TestRecord))
    (k : String) :
    lookupRec (p :: t) k = if p.1 = k then some p.2 else lookupRec t k := by
  unfold lookupRec
  by_cases h : p.1 = k
  · simp [List.find?_cons, h]
  · simp [List.find?_cons, h]

/-- Lookup over an append prefers the left list. -/
theorem lookupRec_append (l m : List (String × TestRecord)) (k : String) :
    lookupRec (l ++ m) k =
      match lookupRec l k with
      | some r => some r
      | none => lookupRec m k := by
  induction l with
  | nil => simp [lookupRec_nil]
  | cons p t ih =>
    rw [List.cons_append, lookupRec_cons, lookupRec_cons]
    by_cases h : p.1 = k
    · simp [h]
    · simp [h, ih]

/-- Updating a key preserves the store's length. -/
theorem length_updateRec (l : List (String × TestRecord)) (k : String)
    (f : TestRecord → TestRecord) : (updateRec l k f).length = l.length := by
  simp [updateRec]

/-- Lookup after an update: the updated key sees `f` applied, other keys
are untouched. -/
theorem lookupRec_update (l : List (String × TestRecord)) (k : String)
    (f : TestRecord → TestRecord) (q : String) :
    lookupRec (updateRec l k f) q =
      if k = q then (lookupRec l q).map f else lookupRec l q := by
  induction l with
  | nil =>
    by_cases hkq : k = q <;> simp [updateRec, lookupRec_nil, hkq]
  | cons p t ih =>
    simp only [updateRec, List.map_cons] at ih ⊢
    by_cases hpk : p.1 = k
    · subst hpk
      rw [if_pos (by simp), lookupRec_cons, lookupRec_cons]
      by_cases hq : p.1 = q
      · subst hq
        simp
      · simp only [hq, if_false]
        rw [ih]
        by_cases hkq2 : p.1 = q
        · exact absurd hkq2 hq
        · simp [hkq2]
    · rw [if_neg (by simpa using hpk), lookupRec_cons, lookupRec_cons]
      by_cases hq : p.1 = q
      · subst hq
        have hkq : ¬ k = p.1 := fun h2 => hpk h2.symm
        simp [hkq]
      · simp only [hq, if_false]
        exact ih

/-- The store after `onTestEnd`, written with the explicit
insert-then-append-attempt steps of the source. -/
theorem onTestEnd_records (st : ReporterState) (t : TestCaseDetails) (a : Attempt) :
    (onTestEnd st t a).testRecords =
      updateRec (if (lookupRec st.testRecords t.testTitle).isNone
                 then st.testRecords ++ [(t.testTitle, ⟨t, []⟩)]
                 else st.testRecords) t.testTitle
        (fun r => ⟨r.test, r.attempts ++ [storedAttempt a]⟩) := rfl

/-- A failed lookup means no entry has that key. -/
theorem lookupRec_none (l : List (String × TestRecord)) (k : String) :
    lookupRec l k = none ↔ ∀ p ∈ l, p.1 ≠ k := by
  simp [lookupRec, List.find?_eq_none]

/-- The empty store is well-formed. -/
theorem wf_init : WFStore initState.testRecords := by
  constructor <;> simp [initState]

/-- Membership in an updated store comes from membership in the
original. -/
theorem mem_updateRec {l : List (String × TestRecord)} {k : String}
    {f : TestRecord → TestRecord} {q : String × TestRecord}
    (hq : q ∈ updateRec l k f) :
    ∃ p ∈ l, q = if p.1 = k then (p.1, f p.2) else p := by
  unfold updateRec at hq
  rcases List.mem_map.mp hq with ⟨p, hp, hpq⟩
  refine ⟨p, hp, ?_⟩
  by_cases h : p.1 = k
  · simp only [h, if_pos, beq_self_eq_true, if_true] at hpq ⊢
    rw [← hpq]
  · have hb : (p.1 == k) = false := by simpa using h
    rw [if_neg h]
    simp only [hb, Bool.false_eq_true, if_false] at hpq
    exact hpq.symm

/-- Updating a key keeps the keys pairwise distinct. -/
theorem pairwise_updateRec (l : List (String × TestRecord)) (k : String)
    (f : TestRecord → TestRecord)
    (h : l.Pairwise (fun p q => p.1 ≠ q.1)) :
    (updateRec l k f).Pairwise (fun p q => p.1 ≠ q.1) := by
  unfold updateRec
  rw [List.pairwise_map]
  refine h.imp ?_
  intro a b hab
  by_cases ha : (a.1 == k) = true <;> by_cases hb : (b.1 == k) = true <;>
    simp [ha, hb] <;> simpa using hab

/-- `onTestEnd` preserves store well-formedness. -/
theorem wf_onTestEnd (st : ReporterState) (t : TestCaseDetails) (a : Attempt)
    (h : WFStore st.testRecords) : WFStore (onTestEnd st t a).testRecords := by
  rcases h with ⟨hkeys, hpair⟩
  rw [onTestEnd_records]
  have hstep : ∀ store0 : List (String × TestRecord),
      (∀ p ∈ store0, p.1 = p.2.test.testTitle) →
      store0.Pairwise (fun p q => p.1 ≠ q.1) →
      WFStore (updateRec store0 t.testTitle
        (fun r => ⟨r.test, r.attempts ++ [storedAttempt a]⟩)) := by
    intro store0 hk hp
    constructor
    · intro q hq
      rcases mem_updateRec hq with ⟨p, hpmem, hqe⟩
      by_cases hcase : p.1 = t.testTitle
      · rw [hqe, if_pos hcase]
        exact hk p hpmem
      · rw [hqe, if_neg hcase]
        exact hk p hpmem
    · exact pairwise_updateRec _ _ _ hp
  split
  · rename_i hnone
    have hfresh : ∀ p ∈ st.testRecords, p.1 ≠ t.testTitle := by
      rw [← lookupRec_none]
      exact Option.isNone_iff_eq_none.mp hnone
    apply hstep
    · intro p hp
      rcases List.mem_append.mp hp with hl | hr
      · exact hkeys p hl
      · rcases List.mem_singleton.mp hr with rfl
        rfl
    · rw [List.pairwise_append]
      refine ⟨hpair, List.pairwise_singleton _ _, ?_⟩
      intro p hp q hq
      rcases List.mem_singleton.mp hq with rfl
      exact hfresh p hp
  · exact hstep _ hkeys hpair

/-- Any single event preserves store well-formedness. -/
theorem wf_ingest (st : ReporterState) (e : RunnerEvent)
    (h : WFStore st.testRecords) : WFStore (ingest st e).testRecords := by
  cases e with
  | testEnd t a => exact wf_onTestEnd st t a h
  | nonTestError err => exact h

/-- Every reachable store is well-formed. -/
theorem wf_ingestAll (es : List RunnerEvent) : WFStore (ingestAll es).testRecords := by
  have hgen : ∀ s : ReporterState, WFStore s.testRecords →
      WFStore (es.foldl ingest s).testRecords := by
    induction es with
    | nil =>
      intro s hs
      exact hs
    | cons e tl ih =>
      intro s hs
      exact ih _ (wf_ingest s e hs)
  exact hgen initState wf_init

/-- A derived failure carries its record's test title. -/
theorem failureOfRecord_title (r : TestRecord) (f : TestFailure)
    (h : failureOfRecord r = some f) : f.testTitle = r.test.testTitle := by
  unfold failureOfRecord at h
  split at h
  · cases h
  · split at h
    · cases h
      rfl
    · cases h

/-- No failure derived from records of other titles survives a filter by
this title. -/
theorem filter_failures_nil (tl : List (String × TestRecord)) (T : String)
    (h : ∀ q ∈ tl, q.2.test.testTitle ≠ T) :
    (tl.filterMap (fun p => failureOfRecord p.2)).filter
      (fun f => f.testTitle == T) = [] := by
  induction tl with
  | nil => rfl
  | cons p tl2 ih =>
    rw [List.filterMap_cons]
    cases hf : failureOfRecord p.2 with
    | none => exact ih (fun q hq => h q (List.mem_cons_of_mem _ hq))
    | some f =>
      rw [List.filter_cons]
      have hft : (f.testTitle == T) = false := by
        have h1 := failureOfRecord_title _ _ hf
        have h2 := h p (List.mem_cons_self _ _)
        simp only [beq_eq_false_iff_ne, ne_eq, h1]
        exact h2
      simp only [hft, Bool.false_eq_true, if_false]
      exact ih (fun q hq => h q (List.mem_cons_of_mem _ hq))

/-- In a well-formed store, the failures filtered to one record's title
are exactly that record's derived failure. -/
theorem failures_filter : ∀ (store : List (String × TestRecord)),
    (∀ p ∈ store, p.1 = p.2.test.testTitle) →
    store.Pairwise (fun p q => p.1 ≠ q.1) →
    ∀ (k : String) (r : TestRecord), (k, r) ∈ store →
    (store.filterMap (fun p => failureOfRecord p.2)).filter
      (fun f => f.testTitle == r.test.testTitle) = (failureOfRecord r).toList := by
  intro store
  induction store with
  | nil =>
    intro _ _ k r hmem
    cases hmem
  | cons p tl ih =>
    intro hkeys hpair k r hmem
    rw [List.filterMap_cons]
    have hptl : ∀ q ∈ tl, p.1 ≠ q.1 := (List.pairwise_cons.mp hpair).1
    have hpairtl := (List.pairwise_cons.mp hpair).2
    have hkeystl : ∀ q ∈ tl, q.1 = q.2.test.testTitle :=
      fun q hq => hkeys q (List.mem_cons_of_mem _ hq)
    rcases List.mem_cons.mp hmem with heq | htl
    · subst heq
      have hk : k = r.test.testTitle := hkeys (k, r) (List.mem_cons_self _ _)
      have htlne : ∀ q ∈ tl, q.2.test.testTitle ≠ r.test.testTitle := by
        intro q hq hqe
        exact hptl q hq (by rw [hkeystl q hq, hqe]; exact hk)
      cases hf : failureOfRecord r with
      | some f =>
        rw [List.filter_cons]
        have hft : (f.testTitle == r.test.testTitle) = true := by
          simp [failureOfRecord_title _ _ hf]
        simp only [hft, if_true]
        rw [filter_failures_nil tl _ htlne]
        rfl
      | none =>
        rw [filter_failures_nil tl _ htlne]
        rfl
    · have hne : p.2.test.testTitle ≠ r.test.testTitle := by
        intro hpe
        apply hptl (k, r) htl
        rw [hkeys p (List.mem_cons_self _ _), hpe]
        exact (hkeystl (k, r) htl).symm
      cases hf : failureOfRecord p.2 with
      | none => exact ih hkeystl hpairtl k r htl
      | some f =>
        rw [List.filter_cons]
        have hft : (f.testTitle == r.test.testTitle) = false := by
          simp only [beq_eq_false_iff_ne, ne_eq, failureOfRecord_title _ _ hf]
          exact hne
        simp only [hft, Bool.false_eq_true, if_false]
        exact ih hkeystl hpairtl k r htl

/-! ### Channel-shape lemmas -/

/-- Every call made by the nested PR automation belongs to the
PRAutomation channel. -/
theorem channelOf_generatePullRequest (env : Env) (f : TestFailure) (r : FixResult) :
    ∀ e ∈ generatePullRequest env f r, channelOf e = Chan.prAutomation := by
  intro e he
  unfold generatePullRequest at he
  split at he
  · cases he
  split at he
  · cases he
  split at he
  · cases he
  rcases List.mem_cons.mp he with rfl | he
  · rfl
  split at he
  · cases he
  · cases he
  rcases List.mem_cons.mp he with rfl | he
  · rfl
  split at he
  · cases he
  · cases he
  rw [List.mem_singleton] at he
  subst he
  rfl

/-- One failure's fix processing is its fix-channel calls followed by its
PR-channel calls. -/
theorem fixOne_decomp (cfg : ReporterConfig) (env : Env) (f : TestFailure) :
    ∃ fixPart prPart, fixOne cfg env f = fixPart ++ prPart
      ∧ (∀ e ∈ fixPart, channelOf e = Chan.fixSuggestion)
      ∧ (∀ e ∈ prPart, channelOf e = Chan.prAutomation) := by
  unfold fixOne
  split
  · exact ⟨[], [], rfl, by simp, by simp⟩
  · split
    · refine ⟨[Event.fixAttempt f.testTitle], [], by simp, ?_, by simp⟩
      intro e he
      rw [List.mem_singleton] at he
      subst he
      rfl
    · split
      · refine ⟨[Event.fixAttempt f.testTitle], [], by simp, ?_, by simp⟩
        intro e he
        rw [List.mem_singleton] at he
        subst he
        rfl
      · rename_i r hr
        by_cases hpr : cfg.generatePR = true
        · refine ⟨[Event.fixAttempt f.testTitle,
            Event.fixGenerated f.testTitle r.promptPath r.fixPath],
            Event.prStart f.testTitle :: generatePullRequest env f r, ?_, ?_, ?_⟩
          · simp [hpr]
          · intro e he
            rcases List.mem_cons.mp he with rfl | he2
            · rfl
            · rw [List.mem_singleton] at he2
              subst he2
              rfl
          · intro e he
            rcases List.mem_cons.mp he with rfl | he2
            · rfl
            · exact channelOf_generatePullRequest env f r e he2
        · refine ⟨[Event.fixAttempt f.testTitle,
            Event.fixGenerated f.testTitle r.promptPath r.fixPath], [], ?_, ?_, by simp⟩
          · simp [hpr]
          · intro e he
            rcases List.mem_cons.mp he with rfl | he2
            · rfl
            · rw [List.mem_singleton] at he2
              subst he2
              rfl

/-- The FixSuggestion channel emits only fix- and PR-channel calls. -/
theorem channelOf_fixSuggestionChannel (cfg : ReporterConfig) (env : Env)
    (failures : List TestFailure) :
    ∀ e ∈ fixSuggestionChannel cfg env failures,
      channelOf e = Chan.fixSuggestion ∨ channelOf e = Chan.prAutomation := by
  intro e he
  unfold fixSuggestionChannel at he
  split at he
  · obtain ⟨l, hl, hel⟩ := List.mem_flatten.mp he
    obtain ⟨fl, hfl, rfl⟩ := List.mem_map.mp hl
    obtain ⟨fp, pp, hdecomp, hfp, hpp⟩ := fixOne_decomp cfg env fl
    rw [hdecomp] at hel
    rcases List.mem_append.mp hel with h1 | h2
    · exact Or.inl (hfp e h1)
    · exact Or.inr (hpp e h2)
  · cases he

/-- The BugFiling channel emits only bug-channel calls. -/
theorem channelOf_bugFilingChannel (cfg : ReporterConfig) (env : Env)
    (failures : List TestFailure) :
    ∀ e ∈ bugFilingChannel cfg env failures, channelOf e = Chan.bugFiling := by
  intro e he
  unfold bugFilingChannel at he
  split at he
  · split at he
    · cases he
    · obtain ⟨f, hf, rfl⟩ := List.mem_map.mp he
      rfl
  · cases he

/-- The per-row save loop emits only database-channel calls. -/
theorem channelOf_dbSaveLoop (env : Env) (runId : String)
    (tcs : List TestCaseDetails) :
    ∀ e ∈ dbSaveLoop env runId tcs, channelOf e = Chan.dbPublish := by
  induction tcs with
  | nil =>
    intro e he
    cases he
  | cons tc rest ih =>
    intro e he
    unfold dbSaveLoop at he
    rcases List.mem_cons.mp he with rfl | he2
    · rfl
    · split at he2
      · cases he2
      · exact ih e he2

/-- The DBPublish channel emits only database-channel calls. -/
theorem channelOf_dbPublishChannel (cfg : ReporterConfig) (env : Env)
    (summary : TestSummary) (tcs : List TestCaseDetails) :
    ∀ e ∈ dbPublishChannel cfg env summary tcs, channelOf e = Chan.dbPublish := by
  intro e he
  unfold dbPublishChannel at he
  split at he
  · split at he
    · cases he
    · split at he
      · cases he
      · split at he
        · cases he
        · rcases List.mem_cons.mp he with rfl | he2
          · rfl
          · split at he2
            · cases he2
            · exact channelOf_dbSaveLoop env _ tcs e he2
  · cases he

/-- The Notification channel emits only notification-channel calls. -/
theorem channelOf_notificationChannel (cfg : ReporterConfig) (env : Env)
    (summary : TestSummary) (failures : List TestFailure) :
    ∀ e ∈ notificationChannel cfg env summary failures,
      channelOf e = Chan.notification := by
  intro e he
  unfold notificationChannel at he
  split at he
  · split at he
    · cases he
    · split at he
      · cases he
      · split at he
        · cases he
        · rcases List.mem_cons.mp he with rfl | he2
          · rfl
          · split at he2
            · cases he2
            · split at he2
              · rw [List.mem_singleton] at he2
                subst he2
                rfl
              · cases he2
  · cases he

/-- Filtering by a channel foreign to every element gives nothing. -/
theorem filter_chan_nil (c : Chan) (l : List Event)
    (h : ∀ e ∈ l, channelOf e ≠ c) :
    l.filter (fun e => channelOf e == c) = [] := by
  induction l with
  | nil => rfl
  | cons a t ih =>
    rw [List.filter_cons]
    have hc : (channelOf a == c) = false := by
      simpa using h a (List.mem_cons_self _ _)
    simp only [hc, Bool.false_eq_true, if_false]
    exact ih (fun e he => h e (List.mem_cons_of_mem _ he))

/-- Filtering by the channel of every element is the identity. -/
theorem filter_chan_all (c : Chan) (l : List Event)
    (h : ∀ e ∈ l, channelOf e = c) :
    l.filter (fun e => channelOf e == c) = l := by
  induction l with
  | nil => rfl
  | cons a t ih =>
    rw [List.filter_cons]
    have hc : (channelOf a == c) = true := by
      simpa using h a (List.mem_cons_self _ _)
    simp only [hc, if_true]
    rw [ih (fun e he => h e (List.mem_cons_of_mem _ he))]

/-- The database-channel calls of the pipeline are exactly the DBPublish
segment. -/
theorem filter_db_pipeline (cfg : ReporterConfig) (env : Env) (st : ReporterState) :
    (pipelineEvents cfg env st).filter (fun e => channelOf e == Chan.dbPublish) =
      dbPublishChannel cfg env (buildSummary cfg env st) (allCases st) := by
  unfold pipelineEvents
  rw [List.filter_append, List.filter_append, List.filter_append]
  rw [filter_chan_nil _ _ (fun e he => by
    rcases channelOf_fixSuggestionChannel cfg env _ e he with h | h <;> simp [h])]
  rw [filter_chan_nil _ _ (fun e he => by
    have hb := channelOf_bugFilingChannel cfg env _ e he
    simp [hb])]
  rw [filter_chan_all _ _ (channelOf_dbPublishChannel cfg env _ _)]
  rw [filter_chan_nil _ _ (fun e he => by
    have hn := channelOf_notificationChannel cfg env _ _ e he
    simp [hn])]
  simp

/-- The notification-channel calls of the pipeline are exactly the
Notification segment. -/
theorem filter_notify_pipeline (cfg : ReporterConfig) (env : Env) (st : ReporterState) :
    (pipelineEvents cfg env st).filter (fun e => channelOf e == Chan.notification) =
      notificationChannel cfg env (buildSummary cfg env st)
        (processTestResults st.testRecords).failures := by
  unfold pipelineEvents
  rw [List.filter_append, List.filter_append, List.filter_append]
  rw [filter_chan_nil _ _ (fun e he => by
    rcases channelOf_fixSuggestionChannel cfg env _ e he with h | h <;> simp [h])]
  rw [filter_chan_nil _ _ (fun e he => by
    have hb := channelOf_bugFilingChannel cfg env _ e he
    simp [hb])]
  rw [filter_chan_nil _ _ (fun e he => by
    have hd := channelOf_dbPublishChannel cfg env _ _ e he
    simp [hd])]
  rw [filter_chan_all _ _ (channelOf_notificationChannel cfg env _ _)]
  simp

/-- Flattening constantly empty blocks gives the empty list. -/
theorem flatten_map_nil {α β : Type} (l : List α) :
    (l.map (fun _ => ([] : List β))).flatten = [] := by
  induction l with
  | nil => rfl
  | cons a t ih => simp [ih]

/-- The exact values carried by the calls of the nested PR automation. -/
theorem mem_genPR_shape (env : Env) (f : TestFailure) (r : FixResult) :
    ∀ e ∈ generatePullRequest env f r,
      e = Event.prBranchCreate
            ("autofix/" ++ sanitizeTitle f.testTitle ++ "-" ++ env.timestamp)
            env.baseBranch
      ∨ (∃ fs, e = Event.prCommit
            ("autofix/" ++ sanitizeTitle f.testTitle ++ "-" ++ env.timestamp) fs)
      ∨ e = Event.prCreateRequest (mkPROptions f
            ("autofix/" ++ sanitizeTitle f.testTitle ++ "-" ++ env.timestamp)
            env.baseBranch) := by
  intro e he
  unfold generatePullRequest at he
  split at he
  · cases he
  split at he
  · cases he
  split at he
  · cases he
  rcases List.mem_cons.mp he with rfl | he
  · exact Or.inl rfl
  split at he
  · cases he
  · cases he
  rcases List.mem_cons.mp he with rfl | he
  · exact Or.inr (Or.inl ⟨_, rfl⟩)
  split at he
  · cases he
  · cases he
  rw [List.mem_singleton] at he
  subst he
  exact Or.inr (Or.inr rfl)

/-- The exact shape of the calls of one failure's fix processing; PR
calls imply the `generatePR` toggle and a successful fix. -/
theorem mem_fixOne_shape (cfg : ReporterConfig) (env : Env) (f : TestFailure) :
    ∀ e ∈ fixOne cfg env f,
      e = Event.fixAttempt f.testTitle
      ∨ (∃ r, env.genFix f = some r ∧
          e = Event.fixGenerated f.testTitle r.promptPath r.fixPath)
      ∨ (∃ r, cfg.generatePR = true ∧ fixSucceeded env f ∧ env.genFix f = some r ∧
          (e = Event.prStart f.testTitle ∨ e ∈ generatePullRequest env f r)) := by
  intro e he
  unfold fixOne at he
  split at he
  · cases he
  rename_i file hfile
  rcases List.mem_cons.mp he with rfl | he
  · exact Or.inl rfl
  split at he
  · cases he
  rename_i s hs
  split at he
  · cases he
  rename_i r hr
  rcases List.mem_cons.mp he with rfl | he
  · exact Or.inr (Or.inl ⟨r, hr, rfl⟩)
  split at he
  · rename_i hpr
    have hsucc : fixSucceeded env f := ⟨file, r, hfile, ⟨s, hs⟩, hr⟩
    rcases List.mem_cons.mp he with rfl | he
    · exact Or.inr (Or.inr ⟨r, hpr, hsucc, hr, Or.inl rfl⟩)
    · exact Or.inr (Or.inr ⟨r, hpr, hsucc, hr, Or.inr he⟩)
  · cases he

/-- The flaky run's store is a single record under the test's title. -/
theorem flaky_store : (ingestAll esFlaky).testRecords = [("flaky", rFlaky)] := rfl

/-- That record is in the flaky run's store. -/
theorem flaky_mem : ("flaky", rFlaky) ∈ (ingestAll esFlaky).testRecords := by
  rw [flaky_store]
  exact List.mem_singleton.mpr rfl


/-! ### Claim theorems -/

/-- Claim C1: for every completed run, the terminal exit signal is success
(exit code 0) iff testCount > 0, the failures list is empty, the
nonTestErrors list is empty and no interrupted attempt was observed; in
every other case (including zero tests) it is failure; and the decision
depends only on test/attempt/setup-teardown state, never on the
configuration of the pipeline channels or the outcome of any collaborator
call. -/
theorem claim_C1 (cfg cfg2 : ReporterConfig) (env env2 : Env)
    (es : List RunnerEvent) :
    ((onEnd cfg env (ingestAll es)).exitCode = 0 ↔
      (0 < (processTestResults (ingestAll es).testRecords).testCount ∧
       (processTestResults (ingestAll es).testRecords).failures = [] ∧
       (ingestAll es).nonTestErrors = [] ∧
       ¬ ∃ t a, RunnerEvent.testEnd t a ∈ es ∧ a.status = .interrupted))
    ∧ (onEnd cfg env (ingestAll es)).exitCode =
        (onEnd cfg2 env2 (ingestAll es)).exitCode := by
  constructor
  · rw [← flag_iff]
    unfold onEnd exitDecision
    split
    · rename_i h0
      simp [h0]
    · rename_i h0
      split
      · rename_i hcond
        simp only [Bool.or_eq_true, Bool.not_eq_true', List.isEmpty_eq_false] at hcond
        constructor
        · intro hz
          exact absurd hz one_ne_zero
        · rintro ⟨-, hf, he, hflag⟩
          rcases hcond with (hne | hne) | hne
          · exact (hne hf).elim
          · exact (hne he).elim
          · exact (hflag hne).elim
      · rename_i hcond
        simp only [Bool.or_eq_true, not_or, Bool.not_eq_true', List.isEmpty_eq_false,
          not_not] at hcond
        rcases hcond with ⟨⟨hf, he⟩, hflag⟩
        simp [Nat.pos_of_ne_zero h0, hf, he, hflag]
  · unfold onEnd exitDecision
    split <;> rfl

/-- Witness for C1 at a concrete clean one-test run. -/
theorem claim_C1_witness :
    ((onEnd defaultReporterConfig envNoop (ingestAll esPass)).exitCode = 0 ↔
      (0 < (processTestResults (ingestAll esPass).testRecords).testCount ∧
       (processTestResults (ingestAll esPass).testRecords).failures = [] ∧
       (ingestAll esPass).nonTestErrors = [] ∧
       ¬ ∃ t a, RunnerEvent.testEnd t a ∈ esPass ∧ a.status = .interrupted))
    ∧ (onEnd defaultReporterConfig envNoop (ingestAll esPass)).exitCode =
        (onEnd cfgEmail envNotify (ingestAll esPass)).exitCode :=
  claim_C1 defaultReporterConfig cfgEmail envNoop envNotify esPass

/-- Claim C2: with the BugFiling collaborator throwing on every call, the
thrown error is absorbed at the channel boundary — the database and
notification channels make exactly the calls they would make with
BugFiling disabled, the exit signal equals the BugFiling-disabled signal,
and (last two conjuncts) an enabled, configured DBPublish or Notification
channel still performs its first call. -/
theorem claim_C2 (cfg : ReporterConfig) (env : Env) (st : ReporterState) (msg : String)
    (hcb : cfg.createBug = true)
    (hthrow : ∀ payload, env.createBug payload = .error msg) :
    ((onEnd cfg env st).events.filter (fun e => channelOf e == Chan.dbPublish) =
     (onEnd { cfg with createBug := false } env st).events.filter
       (fun e => channelOf e == Chan.dbPublish))
    ∧ ((onEnd cfg env st).events.filter (fun e => channelOf e == Chan.notification) =
       (onEnd { cfg with createBug := false } env st).events.filter
         (fun e => channelOf e == Chan.notification))
    ∧ (onEnd cfg env st).exitCode = (onEnd { cfg with createBug := false } env st).exitCode
    ∧ (cfg.publishToDB = true → env.dbConfigured = true →
        env.dbRegistry = .ok () → env.dbInit = .ok () →
        (processTestResults st.testRecords).testCount ≠ 0 →
        ∃ rest, (onEnd cfg env st).events.filter (fun e => channelOf e == Chan.dbPublish) =
          Event.dbSaveRun (buildSummary cfg env st).testCount
            (buildSummary cfg env st).passedCount
            (buildSummary cfg env st).failedCount
            (buildSummary cfg env st).skippedCount :: rest)
    ∧ (cfg.sendEmail = true → env.notifyConfigured = true →
        env.notifyRegistry = .ok () → env.recipients ≠ [] →
        (processTestResults st.testRecords).testCount ≠ 0 →
        ∃ rest, (onEnd cfg env st).events.filter
            (fun e => channelOf e == Chan.notification) =
          Event.notifySummary (severityOf (buildSummary cfg env st)) env.recipients
            :: rest) := by
  have hdbp : ∀ cfg2 : ReporterConfig,
      (processTestResults st.testRecords).testCount ≠ 0 →
      (onEnd cfg2 env st).events.filter (fun e => channelOf e == Chan.dbPublish) =
        dbPublishChannel cfg2 env (buildSummary cfg2 env st) (allCases st) := by
    intro cfg2 h0
    unfold onEnd
    rw [if_neg h0]
    exact filter_db_pipeline cfg2 env st
  have hnfp : ∀ cfg2 : ReporterConfig,
      (processTestResults st.testRecords).testCount ≠ 0 →
      (onEnd cfg2 env st).events.filter (fun e => channelOf e == Chan.notification) =
        notificationChannel cfg2 env (buildSummary cfg2 env st)
          (processTestResults st.testRecords).failures := by
    intro cfg2 h0
    unfold onEnd
    rw [if_neg h0]
    exact filter_notify_pipeline cfg2 env st
  by_cases h0 : (processTestResults st.testRecords).testCount = 0
  · refine ⟨?_, ?_, ?_, ?_, ?_⟩
    · simp [onEnd, h0]
    · simp [onEnd, h0]
    · simp [onEnd, h0]
    · intro _ _ _ _ hne
      exact absurd h0 hne
    · intro _ _ _ _ hne
      exact absurd h0 hne
  · refine ⟨?_, ?_, ?_, ?_, ?_⟩
    · rw [hdbp cfg h0, hdbp { cfg with createBug := false } h0]
      rfl
    · rw [hnfp cfg h0, hnfp { cfg with createBug := false } h0]
      rfl
    · unfold onEnd
      rw [if_neg h0, if_neg h0]
    · intro hdb hconf hreg hinit _
      rw [hdbp cfg h0]
      unfold dbPublishChannel
      rw [if_pos hdb]
      rw [hconf]
      simp only [Bool.not_true, Bool.false_eq_true, if_false]
      rw [hreg, hinit]
      exact ⟨_, rfl⟩
    · intro hse hconf hreg hrec _
      rw [hnfp cfg h0]
      unfold notificationChannel
      rw [if_pos hse, hconf]
      simp only [Bool.not_true, Bool.false_eq_true, if_false]
      rw [hreg]
      rw [if_neg (by simpa [List.isEmpty_iff] using hrec)]
      exact ⟨_, rfl⟩

/-- Witness for C2: a bug tracker that always throws, with the bug
channel enabled, leaves the exit signal of a clean run equal to the
bug-channel-disabled signal. -/
theorem claim_C2_witness :
    cfgBug.createBug = true ∧
    (∀ payload, envBugThrow.createBug payload = .error "bug tracker down") ∧
    (onEnd cfgBug envBugThrow stPass).exitCode =
      (onEnd { cfgBug with createBug := false } envBugThrow stPass).exitCode :=
  ⟨rfl, fun _ => rfl,
    (claim_C2 cfgBug envBugThrow stPass "bug tracker down" rfl (fun _ => rfl)).2.2.1⟩

/-- Claim C3: a run with zero tests signals the distinct
no-tests-discovered state — the exit code is failure, no pipeline channel
makes any call, and neither a summary nor a last-run status is
produced. -/
theorem claim_C3 (cfg : ReporterConfig) (env : Env) (st : ReporterState)
    (h : (processTestResults st.testRecords).testCount = 0) :
    (onEnd cfg env st).exitCode = 1 ∧ (onEnd cfg env st).events = [] ∧
    (onEnd cfg env st).summary = none ∧ (onEnd cfg env st).lastRun = none := by
  simp [onEnd, h]

/-- Witness for C3 at the empty run. -/
theorem claim_C3_witness :
    (processTestResults initState.testRecords).testCount = 0 ∧
    (onEnd defaultReporterConfig envNoop initState).exitCode = 1 ∧
    (onEnd defaultReporterConfig envNoop initState).events = [] ∧
    (onEnd defaultReporterConfig envNoop initState).summary = none ∧
    (onEnd defaultReporterConfig envNoop initState).lastRun = none :=
  ⟨rfl, claim_C3 defaultReporterConfig envNoop initState rfl⟩

/-- Claim C4: every produced RunSummary satisfies
passedCount + failedCount + skippedCount = testCount. -/
theorem claim_C4 (cfg : ReporterConfig) (env : Env) (st : ReporterState)
    (s : TestSummary) (h : (onEnd cfg env st).summary = some s) :
    s.passedCount + s.failedCount + s.skippedCount = s.testCount := by
  unfold onEnd at h
  split at h
  · simp at h
  · simp only [Option.some.injEq] at h
    subst h
    have hle := counts_le st.testRecords
    simp only [buildSummary]
    omega

/-- Witness for C4 at a concrete one-test run. -/
theorem claim_C4_witness :
    (onEnd defaultReporterConfig envNoop stPass).summary =
      some (buildSummary defaultReporterConfig envNoop stPass) ∧
    (buildSummary defaultReporterConfig envNoop stPass).passedCount +
      (buildSummary defaultReporterConfig envNoop stPass).failedCount +
      (buildSummary defaultReporterConfig envNoop stPass).skippedCount =
      (buildSummary defaultReporterConfig envNoop stPass).testCount :=
  ⟨rfl, claim_C4 defaultReporterConfig envNoop stPass _ rfl⟩

/-- Counterexample to C5 as stated: two attempt-end events whose test
identities differ (same title dup, different suites) are appended to one
and the same TestRecord — the store holds a single record carrying both
attempts, refuting that distinct (suite, title) identities get distinct
records. -/
theorem claim_C5_counterexample :
    tcDupA.suiteTitle ≠ tcDupB.suiteTitle ∧
    (onTestEnd (onTestEnd initState tcDupA aDup1) tcDupB aDup2).testRecords.length = 1 ∧
    (lookupRec (onTestEnd (onTestEnd initState tcDupA aDup1) tcDupB aDup2).testRecords
        "dup").map (fun r => r.attempts.length) = some 2 := by
  refine ⟨by decide, rfl, rfl⟩

/-- Claim C5 (amended): two attempt-end events are appended to the same
TestRecord iff they share the same test title — the map key is the title
alone, the suite is ignored; with equal titles one record (whose metadata
is the first event's) accumulates both attempts, with distinct titles two
records are created. -/
theorem claim_C5 (st : ReporterState) (t1 t2 : TestCaseDetails) (a1 a2 : Attempt)
    (h1 : lookupRec st.testRecords t1.testTitle = none)
    (h2 : lookupRec st.testRecords t2.testTitle = none) :
    ((onTestEnd (onTestEnd st t1 a1) t2 a2).testRecords.length
        = st.testRecords.length + 1 ↔ t1.testTitle = t2.testTitle)
    ∧ (t1.testTitle = t2.testTitle →
        lookupRec (onTestEnd (onTestEnd st t1 a1) t2 a2).testRecords t1.testTitle =
          some ⟨t1, [storedAttempt a1, storedAttempt a2]⟩)
    ∧ (t1.testTitle ≠ t2.testTitle →
        (onTestEnd (onTestEnd st t1 a1) t2 a2).testRecords.length
            = st.testRecords.length + 2
        ∧ lookupRec (onTestEnd (onTestEnd st t1 a1) t2 a2).testRecords t1.testTitle =
            some ⟨t1, [storedAttempt a1]⟩
        ∧ lookupRec (onTestEnd (onTestEnd st t1 a1) t2 a2).testRecords t2.testTitle =
            some ⟨t2, [storedAttempt a2]⟩) := by
  have happ1 : (onTestEnd st t1 a1).testRecords =
      updateRec (st.testRecords ++ [(t1.testTitle, ⟨t1, []⟩)]) t1.testTitle
        (fun r => ⟨r.test, r.attempts ++ [storedAttempt a1]⟩) := by
    rw [onTestEnd_records, h1]
    rfl
  have hlook1 : lookupRec (onTestEnd st t1 a1).testRecords t1.testTitle =
      some ⟨t1, [storedAttempt a1]⟩ := by
    rw [happ1, lookupRec_update, if_pos rfl, lookupRec_append, h1]
    simp [lookupRec_cons]
  have hlookOther : ∀ q, q ≠ t1.testTitle →
      lookupRec (onTestEnd st t1 a1).testRecords q = lookupRec st.testRecords q := by
    intro q hq
    rw [happ1, lookupRec_update, if_neg (fun h => hq h.symm), lookupRec_append]
    cases hc : lookupRec st.testRecords q with
    | some r => rfl
    | none =>
      simp only [lookupRec_cons]
      rw [if_neg (fun h => hq h.symm)]
      rfl
  have hlen1 : (onTestEnd st t1 a1).testRecords.length = st.testRecords.length + 1 := by
    rw [happ1, length_updateRec]
    simp
  by_cases heq : t1.testTitle = t2.testTitle
  · have hlk2 : lookupRec (onTestEnd st t1 a1).testRecords t2.testTitle =
        some ⟨t1, [storedAttempt a1]⟩ := by
      rw [← heq]
      exact hlook1
    have happ2 : (onTestEnd (onTestEnd st t1 a1) t2 a2).testRecords =
        updateRec (onTestEnd st t1 a1).testRecords t2.testTitle
          (fun r => ⟨r.test, r.attempts ++ [storedAttempt a2]⟩) := by
      rw [onTestEnd_records, hlk2]
      rfl
    have hlen2 : (onTestEnd (onTestEnd st t1 a1) t2 a2).testRecords.length
        = st.testRecords.length + 1 := by
      rw [happ2, length_updateRec, hlen1]
    refine ⟨by simp [hlen2, heq], fun _ => ?_, fun hne => absurd heq hne⟩
    rw [happ2, lookupRec_update, if_pos heq.symm, hlook1]
    rfl
  · have hlk2 : lookupRec (onTestEnd st t1 a1).testRecords t2.testTitle = none := by
      rw [hlookOther t2.testTitle (fun h => heq h.symm)]
      exact h2
    have happ2 : (onTestEnd (onTestEnd st t1 a1) t2 a2).testRecords =
        updateRec ((onTestEnd st t1 a1).testRecords ++ [(t2.testTitle, ⟨t2, []⟩)])
          t2.testTitle (fun r => ⟨r.test, r.attempts ++ [storedAttempt a2]⟩) := by
      rw [onTestEnd_records, hlk2]
      rfl
    have hlen2 : (onTestEnd (onTestEnd st t1 a1) t2 a2).testRecords.length
        = st.testRecords.length + 2 := by
      rw [happ2, length_updateRec]
      simp [hlen1]
    have hiff : ((onTestEnd (onTestEnd st t1 a1) t2 a2).testRecords.length
        = st.testRecords.length + 1 ↔ t1.testTitle = t2.testTitle) := by
      rw [hlen2]
      constructor
      · intro hl
        omega
      · intro hteq
        exact absurd hteq heq
    have hlkA : lookupRec (onTestEnd (onTestEnd st t1 a1) t2 a2).testRecords t1.testTitle
        = some ⟨t1, [storedAttempt a1]⟩ := by
      rw [happ2, lookupRec_update, if_neg (fun h => heq h.symm), lookupRec_append, hlook1]
    have hlkB : lookupRec (onTestEnd (onTestEnd st t1 a1) t2 a2).testRecords t2.testTitle
        = some ⟨t2, [storedAttempt a2]⟩ := by
      rw [happ2, lookupRec_update, if_pos rfl, lookupRec_append, hlk2]
      simp [lookupRec_cons]
    exact ⟨hiff, fun hteq => absurd hteq heq, fun _ => ⟨hlen2, hlkA, hlkB⟩⟩

/-- Witness for C5 at the concrete same-titled tests. -/
theorem claim_C5_witness :
    lookupRec initState.testRecords tcDupA.testTitle = none ∧
    ((onTestEnd (onTestEnd initState tcDupA aDup1) tcDupB aDup2).testRecords.length
        = initState.testRecords.length + 1 ↔ tcDupA.testTitle = tcDupB.testTitle) :=
  ⟨rfl, (claim_C5 initState tcDupA tcDupB aDup1 aDup2 rfl rfl).1⟩

/-- Claim C6: in any reachable store, each identity with a failing final
attempt contributes exactly one Failure, whose errorMessage/errorStack
come from that final attempt's first error; an identity whose final
attempt did not fail (even if earlier attempts did) contributes no
Failure.  The list is built once from the frozen store at run end. -/
theorem claim_C6 (es : List RunnerEvent) (k : String) (r : TestRecord)
    (hmem : (k, r) ∈ (ingestAll es).testRecords) :
    (∀ a, r.attempts.getLast? = some a →
      ((a.status = .failed ∨ a.status = .timedOut) →
        (processTestResults (ingestAll es).testRecords).failures.filter
          (fun f => f.testTitle == r.test.testTitle) =
          [{ testId := r.test.testId, testTitle := r.test.testTitle,
             suiteTitle := r.test.suiteTitle,
             errorMessage := headMessage a.errors "Unknown error",
             errorStack := headStack a.errors, duration := a.duration,
             owningTeam := r.test.owningTeam, isTimeout := a.status == .timedOut,
             errorCategory := categorizeError (headMessage a.errors "Unknown error"),
             testFile := r.test.testFile }])
      ∧ (¬(a.status = .failed ∨ a.status = .timedOut) →
        (processTestResults (ingestAll es).testRecords).failures.filter
          (fun f => f.testTitle == r.test.testTitle) = []))
    ∧ (r.attempts.getLast? = none →
      (processTestResults (ingestAll es).testRecords).failures.filter
        (fun f => f.testTitle == r.test.testTitle) = []) := by
  obtain ⟨hkeys, hpair⟩ := wf_ingestAll es
  have hff := failures_filter _ hkeys hpair k r hmem
  have hfeq : (processTestResults (ingestAll es).testRecords).failures =
      (ingestAll es).testRecords.filterMap (fun p => failureOfRecord p.2) := rfl
  constructor
  · intro a ha
    constructor
    · intro hfail
      rw [hfeq, hff]
      unfold failureOfRecord
      rw [ha]
      simp [hfail]
    · intro hok
      rw [hfeq, hff]
      unfold failureOfRecord
      rw [ha]
      simp [hok]
  · intro ha
    rw [hfeq, hff]
    unfold failureOfRecord
    rw [ha]
    rfl

/-- Witness for C6 at the flaky run (fails first, passes on retry): the
identity contributes no Failure. -/
theorem claim_C6_witness :
    ("flaky", rFlaky) ∈ (ingestAll esFlaky).testRecords ∧
    (processTestResults (ingestAll esFlaky).testRecords).failures.filter
      (fun f => f.testTitle == rFlaky.test.testTitle) = [] :=
  ⟨flaky_mem,
    ((claim_C6 esFlaky "flaky" rFlaky flaky_mem).1 (storedAttempt aFlakyPass)
      rfl).2 (by decide)⟩

/-- Claim C7: for every run with tests, the pipeline trace decomposes into
a FixSuggestion segment (itself a concatenation of per-failure blocks,
each block fix-channel calls followed by that failure's nested
PRAutomation calls), then a BugFiling segment, then a DBPublish segment,
then a Notification segment — so a later channel never acts before an
earlier one has finished all its items. -/
theorem claim_C7 (cfg : ReporterConfig) (env : Env) (st : ReporterState)
    (h : 0 < (processTestResults st.testRecords).testCount) :
    ∃ fixSeg bugSeg dbSeg nfSeg,
      (onEnd cfg env st).events = fixSeg ++ bugSeg ++ dbSeg ++ nfSeg
      ∧ (∃ block : TestFailure → List Event,
          fixSeg = ((processTestResults st.testRecords).failures.map block).flatten
          ∧ ∀ f, ∃ fixPart prPart, block f = fixPart ++ prPart
              ∧ (∀ e ∈ fixPart, channelOf e = Chan.fixSuggestion)
              ∧ (∀ e ∈ prPart, channelOf e = Chan.prAutomation))
      ∧ (∀ e ∈ bugSeg, channelOf e = Chan.bugFiling)
      ∧ (∀ e ∈ dbSeg, channelOf e = Chan.dbPublish)
      ∧ (∀ e ∈ nfSeg, channelOf e = Chan.notification) := by
  refine ⟨fixSuggestionChannel cfg env (processTestResults st.testRecords).failures,
    bugFilingChannel cfg env (processTestResults st.testRecords).failures,
    dbPublishChannel cfg env (buildSummary cfg env st) (allCases st),
    notificationChannel cfg env (buildSummary cfg env st)
      (processTestResults st.testRecords).failures, ?_, ?_,
    channelOf_bugFilingChannel cfg env _,
    channelOf_dbPublishChannel cfg env _ _,
    channelOf_notificationChannel cfg env _ _⟩
  · unfold onEnd
    rw [if_neg (Nat.pos_iff_ne_zero.mp h)]
    rfl
  · unfold fixSuggestionChannel
    split
    · exact ⟨fixOne cfg env, rfl, fun f => fixOne_decomp cfg env f⟩
    · exact ⟨fun _ => [], (flatten_map_nil _).symm,
        fun f => ⟨[], [], rfl, by simp, by simp⟩⟩

/-- Witness for C7 at a concrete one-test run. -/
theorem claim_C7_witness :
    0 < (processTestResults stPass.testRecords).testCount ∧
    (∃ fixSeg bugSeg dbSeg nfSeg,
      (onEnd defaultReporterConfig envNoop stPass).events =
        fixSeg ++ bugSeg ++ dbSeg ++ nfSeg
      ∧ (∃ block : TestFailure → List Event,
          fixSeg = ((processTestResults stPass.testRecords).failures.map block).flatten
          ∧ ∀ f, ∃ fixPart prPart, block f = fixPart ++ prPart
              ∧ (∀ e ∈ fixPart, channelOf e = Chan.fixSuggestion)
              ∧ (∀ e ∈ prPart, channelOf e = Chan.prAutomation))
      ∧ (∀ e ∈ bugSeg, channelOf e = Chan.bugFiling)
      ∧ (∀ e ∈ dbSeg, channelOf e = Chan.dbPublish)
      ∧ (∀ e ∈ nfSeg, channelOf e = Chan.notification)) :=
  ⟨by decide, claim_C7 defaultReporterConfig envNoop stPass (by decide)⟩

/-- Counterexample to C8 as stated: a run whose single test's final
attempt is interrupted has an empty failures list, yet the RunSummary
notification is sent with severity Error (the code tests
failedCount > 0, and failedCount counts interrupted finals), where the
claim requires Error only when failures exist. -/
theorem claim_C8_counterexample :
    (processTestResults stInterrupted.testRecords).failures = [] ∧
    Event.notifySummary NotificationSeverity.Error ["qa@example.com"] ∈
      (onEnd cfgEmail envNotify stInterrupted).events := by
  constructor
  · rfl
  · have hev : (onEnd cfgEmail envNotify stInterrupted).events =
        [Event.notifySummary NotificationSeverity.Error ["qa@example.com"]] := rfl
    rw [hev]
    exact List.mem_singleton.mpr rfl

/-- Claim C8 (amended): with the Notification channel enabled and
configured and a summary send that returns rather than throws — if the
recipient list is empty nothing is sent; otherwise exactly one RunSummary
notification is sent, a Failures notification is sent iff the failures
list is non-empty, and the summary's severity is Error if
failedCount = testCount − passedCount − skippedCount is positive (this
also counts tests whose final status is interrupted, so Error can occur
with no failures), else Warning if skippedCount exceeds 20% of testCount,
else Info. -/
theorem claim_C8 (cfg : ReporterConfig) (env : Env) (st : ReporterState)
    (htc : (processTestResults st.testRecords).testCount ≠ 0)
    (hse : cfg.sendEmail = true)
    (hconf : env.notifyConfigured = true)
    (hreg : env.notifyRegistry = .ok ())
    (hok : ∀ sev, ∃ res, env.sendTestSummary sev = .ok res) :
    (env.recipients = [] → notifyEventsOf cfg env st = [])
    ∧ (env.recipients ≠ [] →
        (notifyEventsOf cfg env st).countP isSummaryNotification = 1
        ∧ ((∃ sev rcpts, Event.notifyFailures sev rcpts ∈ notifyEventsOf cfg env st) ↔
            (processTestResults st.testRecords).failures ≠ [])
        ∧ (∀ sev rcpts, Event.notifySummary sev rcpts ∈ notifyEventsOf cfg env st →
            sev = severityOf (buildSummary cfg env st) ∧ rcpts = env.recipients))
    ∧ (severityOf (buildSummary cfg env st) =
        (if 0 < (processTestResults st.testRecords).testCount -
              (processTestResults st.testRecords).passedCount -
              (processTestResults st.testRecords).skippedCount then
          NotificationSeverity.Error
         else if (processTestResults st.testRecords).testCount <
              5 * (processTestResults st.testRecords).skippedCount then
          NotificationSeverity.Warning
         else NotificationSeverity.Info)) := by
  have hnf : notifyEventsOf cfg env st =
      notificationChannel cfg env (buildSummary cfg env st)
        (processTestResults st.testRecords).failures := by
    unfold notifyEventsOf onEnd
    rw [if_neg htc]
    exact filter_notify_pipeline cfg env st
  refine ⟨?_, ?_, rfl⟩
  · intro hrec
    rw [hnf]
    unfold notificationChannel
    rw [if_pos hse, hconf]
    simp only [Bool.not_true, Bool.false_eq_true, if_false]
    rw [hreg]
    rw [if_pos (by simp [hrec])]
  · intro hrec
    obtain ⟨res, hres⟩ := hok (severityOf (buildSummary cfg env st))
    have hnf2 : notifyEventsOf cfg env st =
        Event.notifySummary (severityOf (buildSummary cfg env st)) env.recipients ::
          (if !(processTestResults st.testRecords).failures.isEmpty then
            [Event.notifyFailures NotificationSeverity.Error env.recipients] else []) := by
      rw [hnf]
      unfold notificationChannel
      rw [if_pos hse, hconf]
      simp only [Bool.not_true, Bool.false_eq_true, if_false]
      rw [hreg]
      rw [if_neg (by simpa [List.isEmpty_iff] using hrec), hres]
    refine ⟨?_, ?_, ?_⟩
    · rw [hnf2, List.countP_cons]
      by_cases hfail : (processTestResults st.testRecords).failures = []
      · simp [hfail, isSummaryNotification, List.countP_nil]
      · simp [hfail, isSummaryNotification, List.countP_cons, List.countP_nil]
    · rw [hnf2]
      by_cases hfail : (processTestResults st.testRecords).failures = []
      · simp [hfail]
      · constructor
        · intro _
          exact hfail
        · intro _
          refine ⟨NotificationSeverity.Error, env.recipients, ?_⟩
          simp [hfail]
    · intro sev rcpts hmem
      rw [hnf2] at hmem
      rcases List.mem_cons.mp hmem with heqv | hmem2
      · injection heqv with hs1 hs2
        exact ⟨hs1, hs2⟩
      · exfalso
        split at hmem2
        · rw [List.mem_singleton] at hmem2
          cases hmem2
        · cases hmem2

/-- Witness for C8 at a concrete clean run with one recipient. -/
theorem claim_C8_witness :
    (processTestResults stPass.testRecords).testCount ≠ 0 ∧
    cfgEmail.sendEmail = true ∧
    envNotify.notifyConfigured = true ∧
    ((envNotify.recipients = [] → notifyEventsOf cfgEmail envNotify stPass = [])
    ∧ (envNotify.recipients ≠ [] →
        (notifyEventsOf cfgEmail envNotify stPass).countP isSummaryNotification = 1
        ∧ ((∃ sev rcpts, Event.notifyFailures sev rcpts ∈
              notifyEventsOf cfgEmail envNotify stPass) ↔
            (processTestResults stPass.testRecords).failures ≠ [])
        ∧ (∀ sev rcpts, Event.notifySummary sev rcpts ∈
              notifyEventsOf cfgEmail envNotify stPass →
            sev = severityOf (buildSummary cfgEmail envNotify stPass) ∧
            rcpts = envNotify.recipients))
    ∧ (severityOf (buildSummary cfgEmail envNotify stPass) =
        (if 0 < (processTestResults stPass.testRecords).testCount -
              (processTestResults stPass.testRecords).passedCount -
              (processTestResults stPass.testRecords).skippedCount then
          NotificationSeverity.Error
         else if (processTestResults stPass.testRecords).testCount <
              5 * (processTestResults stPass.testRecords).skippedCount then
          NotificationSeverity.Warning
         else NotificationSeverity.Info))) :=
  ⟨by decide, rfl, rfl,
    claim_C8 cfgEmail envNotify stPass (by decide) rfl rfl rfl
      (fun sev => ⟨⟨true, "mid", ""⟩, rfl⟩)⟩

/-- Claim C9: within a failure's fix processing, PR automation starts iff
the generatePR toggle is on and that failure's fix suggestion just
succeeded; every branch-creation request uses the branch name derived
from the sanitised test title plus the timestamp, from the configured
base branch; every pull-request creation request is a draft; and the fix
channel processes each failure's block independently, so a failing step
in one failure's PR automation leaves the remaining failures'
processing unchanged. -/
theorem claim_C9 (cfg : ReporterConfig) (env : Env) (f : TestFailure) :
    (Event.prStart f.testTitle ∈ fixOne cfg env f ↔
      (cfg.generatePR = true ∧ fixSucceeded env f))
    ∧ (∀ bn bb, Event.prBranchCreate bn bb ∈ fixOne cfg env f →
        bn = "autofix/" ++ sanitizeTitle f.testTitle ++ "-" ++ env.timestamp ∧
        bb = env.baseBranch)
    ∧ (∀ opts, Event.prCreateRequest opts ∈ fixOne cfg env f → opts.draft = true)
    ∧ (∀ rest, cfg.generateFix = true →
        fixSuggestionChannel cfg env (f :: rest) =
          fixOne cfg env f ++ (rest.map (fixOne cfg env)).flatten) := by
  refine ⟨?_, ?_, ?_, ?_⟩
  · constructor
    · intro hmem
      rcases mem_fixOne_shape cfg env f _ hmem with hsh | ⟨r, hr, hsh⟩ |
        ⟨r, hpr, hsucc, hr, hcase⟩
      · simp at hsh
      · simp at hsh
      · exact ⟨hpr, hsucc⟩
    · rintro ⟨hpr, file, r, hfile, ⟨s, hs⟩, hr⟩
      unfold fixOne
      simp only [hfile, hs, hr, hpr, if_true]
      simp
  · intro bn bb hmem
    rcases mem_fixOne_shape cfg env f _ hmem with hsh | ⟨r, hr, hsh⟩ |
      ⟨r, hpr, hsucc, hr, hcase⟩
    · simp at hsh
    · simp at hsh
    · rcases hcase with hsh | hmem2
      · simp at hsh
      · rcases mem_genPR_shape env f r _ hmem2 with hsh | ⟨fs, hsh⟩ | hsh
        · injection hsh with hb1 hb2
          exact ⟨hb1, hb2⟩
        · simp at hsh
        · simp at hsh
  · intro opts hmem
    rcases mem_fixOne_shape cfg env f _ hmem with hsh | ⟨r, hr, hsh⟩ |
      ⟨r, hpr, hsucc, hr, hcase⟩
    · simp at hsh
    · simp at hsh
    · rcases hcase with hsh | hmem2
      · simp at hsh
      · rcases mem_genPR_shape env f r _ hmem2 with hsh | ⟨fs, hsh⟩ | hsh
        · simp at hsh
        · simp at hsh
        · injection hsh with ho
          rw [ho]
          rfl
  · intro rest hgf
    unfold fixSuggestionChannel
    rw [if_pos (by simp [hgf])]
    rw [List.map_cons, List.flatten_cons]

/-- Witness for C9 at a concrete failure whose fix succeeds with PR
automation enabled. -/
theorem claim_C9_witness :
    Event.prStart fFail.testTitle ∈ fixOne cfgPR envFix fFail ∧
    (mkPROptions fFail "autofix/login-works-20250101" "main").draft = true := by
  have hfix : fixOne cfgPR envFix fFail =
      [Event.fixAttempt "login works",
       Event.fixGenerated "login works" "prompts/p.md" "fixes/f.md",
       Event.prStart "login works",
       Event.prBranchCreate "autofix/login-works-20250101" "main",
       Event.prCommit "autofix/login-works-20250101" [⟨"auth.spec.ts", "", "modify"⟩],
       Event.prCreateRequest (mkPROptions fFail "autofix/login-works-20250101" "main")] :=
    rfl
  constructor
  · exact (claim_C9 cfgPR envFix fFail).1.mpr
      ⟨rfl, "auth.spec.ts", ⟨"prompts/p.md", "fixes/f.md"⟩, rfl, ⟨"", rfl⟩, rfl⟩
  · exact (claim_C9 cfgPR envFix fFail).2.2.1 _ (by rw [hfix]; simp)

/-- Claim C10: for every run with tests, the persisted last-run-status
document records failed iff the failures list is non-empty; the
interrupted flag and the non-test errors do not influence it (the
document is unchanged under any values of those fields); and there is a
concrete run (a single interrupted test) whose exit signal is failure
while the document records passed. -/
theorem claim_C10 :
    (∀ (cfg : ReporterConfig) (env : Env) (st : ReporterState),
      0 < (processTestResults st.testRecords).testCount →
      ∃ lr, (onEnd cfg env st).lastRun = some lr ∧
        (lr.status = "failed" ↔ (processTestResults st.testRecords).failures ≠ []) ∧
        ∀ b errs, (onEnd cfg env
          { st with hasInterruptedTests := b, nonTestErrors := errs }).lastRun = some lr)
    ∧ ((onEnd defaultReporterConfig envNoop stInterrupted).exitCode = 1 ∧
       (onEnd defaultReporterConfig envNoop stInterrupted).lastRun =
         some ⟨"passed", []⟩) := by
  constructor
  · intro cfg env st h
    refine ⟨lastRunStatusOf st
      (!(processTestResults st.testRecords).failures.isEmpty), ?_, ?_, ?_⟩
    · unfold onEnd
      rw [if_neg (Nat.pos_iff_ne_zero.mp h)]
    · unfold lastRunStatusOf
      cases hf : (processTestResults st.testRecords).failures.isEmpty with
      | true =>
        have hnil : (processTestResults st.testRecords).failures = [] :=
          List.isEmpty_iff.mp hf
        simp [hf, hnil]
      | false =>
        have hne : (processTestResults st.testRecords).failures ≠ [] := by
          simpa [List.isEmpty_eq_false] using hf
        simp [hne]
    · intro b errs
      unfold onEnd
      rw [show ({st with hasInterruptedTests := b, nonTestErrors := errs} :
        ReporterState).testRecords = st.testRecords from rfl,
        if_neg (Nat.pos_iff_ne_zero.mp h)]
      rfl
  · exact ⟨rfl, rfl⟩

/-- Witness for C10 at a concrete clean run. -/
theorem claim_C10_witness :
    0 < (processTestResults stPass.testRecords).testCount ∧
    (∃ lr, (onEnd defaultReporterConfig envNoop stPass).lastRun = some lr ∧
      (lr.status = "failed" ↔ (processTestResults stPass.testRecords).failures ≠ []) ∧
      ∀ b errs, (onEnd defaultReporterConfig envNoop
        { stPass with hasInterruptedTests := b, nonTestErrors := errs }).lastRun =
          some lr) :=
  ⟨by decide, claim_C10.1 defaultReporterConfig envNoop stPass (by decide)⟩

end PlaywrightAIReporter
